import Mathlib

/-!
Verification development for the session manager of the MCP bash server
(`src/mcp_bash_server/session_manager.py`).

The Python module is shallowly embedded below.  Pure string manipulation is
translated to string/list functions; the stateful session registry becomes a
record that every operation threads explicitly; real time (the wall clock
bounding the polling loop and the microsecond timestamp feeding the
completion marker) is modelled by `Nat` parameters; the asynchronous arrival
of demultiplexed output in the two reader queues is modelled by an explicit
arrival schedule, one batch per polling iteration; exceptions become
`Except` results or boolean "this raised" parameters.
-/

namespace McpBash

/-- Tag of an output-queue entry: which stream the reader thread drained it
from (`session_manager.py` lines 39-49). -/
inductive StreamTag
  | stdout
  | stderr
  deriving DecidableEq

/-- One entry of a session's `output_queue`/`error_queue`: the pair
`(stream, line)` put by a reader thread (lines 43 and 49). -/
structure Entry where
  stream : StreamTag
  line : String
  deriving DecidableEq

/-- Python `line.rstrip('\n\r')`: drop trailing newline and carriage-return
characters (lines 236 and 249). -/
def rstripNewline (s : String) : String :=
  ⟨(s.data.reverse.dropWhile (fun c => c == '\n' || c == '\r')).reverse⟩

/-- Python substring containment `pat in s` (lines 250 and 279). -/
def strContains (pat s : String) : Bool :=
  decide (pat.data <:+: s.data)

/-- Python `s.startswith(pre)` (line 253). -/
def strStartsWith (pre s : String) : Bool :=
  decide (pre.data <+: s.data)

/-- Result of one stderr drain of the polling loop. -/
structure DrainOut where
  lines : List String
  found : Bool
  leftover : List Entry
  deriving DecidableEq

/-- The stderr drain of one polling iteration (lines 244-257): entries are
taken from the error queue in order; a line whose cleaned text contains the
completion marker stops the drain with success, leaving the remaining
entries queued; any other non-empty cleaned line that does not start with
`"bash-"` is accumulated; everything else is discarded. -/
def drainStderr (marker : String) : List Entry → List String → DrainOut
  | [], acc => ⟨acc, false, []⟩
  | e :: rest, acc =>
    if e.stream = StreamTag.stderr then
      let c := rstripNewline e.line
      if strContains marker c then ⟨acc, true, rest⟩
      else if c != "" && !(strStartsWith "bash-" c) then
        drainStderr marker rest (acc ++ [c])
      else drainStderr marker rest acc
    else drainStderr marker rest acc

/-- The stdout drain of one polling iteration (lines 231-241): every entry
is taken from the output queue; non-empty cleaned stdout lines are kept. -/
def drainStdout : List Entry → List String
  | [] => []
  | e :: rest =>
    if e.stream = StreamTag.stdout then
      let c := rstripNewline e.line
      if c != "" then c :: drainStdout rest else drainStdout rest
    else drainStdout rest

/-- The queue entries that become available right before one polling (or
recheck) iteration runs.  The reader threads append to the queues
asynchronously; quantifying over schedules covers every possible timing. -/
structure SchedStep where
  outArr : List Entry
  errArr : List Entry
  deriving DecidableEq

/-- Result of the main polling loop. -/
structure LoopOut where
  outLines : List String
  errLines : List String
  complete : Bool
  outQ : List Entry
  errQ : List Entry
  deriving DecidableEq

/-- The main polling loop (lines 228-269).  The wall-clock test
`time.time() - start_time < timeout` admits some finite number of
iterations before the timeout elapses; that number is the length of the
schedule, one `SchedStep` of queue arrivals per iteration.  Each iteration
drains the whole output queue, then the error queue up to the marker; when
the marker is seen the loop ends at once with success. -/
def pollLoop (marker : String) : List SchedStep → List String → List String →
    List Entry → List Entry → LoopOut
  | [], so, se, outQ, errQ => ⟨so, se, false, outQ, errQ⟩
  | step :: rest, so, se, outQ, errQ =>
    let so' := so ++ drainStdout (outQ ++ step.outArr)
    let d := drainStderr marker (errQ ++ step.errArr) se
    if d.found then ⟨so', d.lines, true, [], d.leftover⟩
    else pollLoop marker rest so' d.lines [] []

/-- Result of the post-timeout recheck phase. -/
structure RecheckOut where
  found : Bool
  outQ : List Entry
  errQ : List Entry
  deriving DecidableEq

/-- One recheck round's scan of the error queue (lines 276-283): only the
completion marker is looked for, in the raw line; every drained entry is
discarded; entries after the marker stay queued. -/
def recheckScan (marker : String) : List Entry → Bool × List Entry
  | [] => (false, [])
  | e :: rest =>
    if e.stream = StreamTag.stderr && strContains marker e.line then (true, rest)
    else recheckScan marker rest

/-- The post-timeout recheck phase (lines 272-287): up to `fuel` (the code
uses 5) rounds, each scanning the error queue for the marker only; the
output queue is never read, so stdout arrivals accumulate there. -/
def recheckRounds (marker : String) : Nat → List SchedStep → List Entry →
    List Entry → RecheckOut
  | 0, _, outQ, errQ => ⟨false, outQ, errQ⟩
  | fuel + 1, sched, outQ, errQ =>
    let step := sched.headD ⟨[], []⟩
    let outQ' := outQ ++ step.outArr
    let s := recheckScan marker (errQ ++ step.errArr)
    if s.1 then ⟨true, outQ', s.2⟩
    else recheckRounds marker fuel sched.tail outQ' []

/-- The result record built at lines 293-299.  The wall-clock
`execution_time` field is not modelled. -/
structure ExecResult where
  stdout : String
  stderr : String
  completed : Bool
  timeout : Bool
  deriving DecidableEq

/-- A foreground execution's result together with the final contents of the
two reader queues (what the next command's capture will start from). -/
structure ForegroundOut where
  result : ExecResult
  outQ : List Entry
  errQ : List Entry
  deriving DecidableEq

/-- Arrival schedule of one foreground execution: the main loop's
iterations and the recheck rounds. -/
structure ExecSchedule where
  main : List SchedStep
  recheck : List SchedStep
  deriving DecidableEq

/-- `_execute_foreground_command` (lines 202-299) after the command has been
written to stdin: run the polling loop; if it ends without the marker and
some output was accumulated, run the 5 recheck rounds; then build the
result record with `completed = command_complete` and
`timeout = not command_complete`. -/
def execute_foreground (marker : String) (sched : ExecSchedule)
    (outQ errQ : List Entry) : ForegroundOut :=
  let L := pollLoop marker sched.main [] [] outQ errQ
  if L.complete then
    ⟨⟨String.intercalate "\n" L.outLines, String.intercalate "\n" L.errLines,
      true, false⟩, L.outQ, L.errQ⟩
  else if L.outLines != [] || L.errLines != [] then
    let R := recheckRounds marker 5 sched.recheck L.outQ L.errQ
    ⟨⟨String.intercalate "\n" L.outLines, String.intercalate "\n" L.errLines,
      R.found, !R.found⟩, R.outQ, R.errQ⟩
  else
    ⟨⟨String.intercalate "\n" L.outLines, String.intercalate "\n" L.errLines,
      false, true⟩, L.outQ, L.errQ⟩

/-- Line 210: `completion_marker = f"__MCP_CMD_COMPLETE_{int(time.time() * 1000000)}__"`.
The microsecond wall-clock reading is modelled as a `Nat`. -/
def completion_marker (t : Nat) : String :=
  "__MCP_CMD_COMPLETE_" ++ Nat.repr t ++ "__"

/-- A single-quote character, written via its code point. -/
def squote : String :=
  String.singleton (Char.ofNat 39)

/-- Line 213: `full_command = f"{command}\necho '{completion_marker}' >/dev/stderr\n"`. -/
def full_command (command marker : String) : String :=
  command ++ "\necho " ++ squote ++ marker ++ squote ++ " >/dev/stderr\n"

/-- The `BashSession` dataclass (lines 19-61).  The live child process is
abstracted by `processAlive` (the value of `process.poll() is None`);
timestamps are `Nat`s; `outputQueue`/`errorQueue` are the reader-thread
queues; `stdinLog` records, in order, the payloads written to the process's
stdin. -/
structure BashSession where
  id : String
  workingDirectory : String
  environment : List (String × String)
  createdAt : Nat
  lastUsed : Nat
  commandHistory : List String
  backgroundJobs : List Nat
  processAlive : Bool
  outputQueue : List Entry
  errorQueue : List Entry
  stdinLog : List String
  deriving DecidableEq

/-- The `SessionManager` registry (lines 64-71): the insertion-ordered
`sessions` dict, as an association list. -/
structure SessionManager where
  sessions : List (String × BashSession)
  deriving DecidableEq

/-- `dict.get` over the association list: the binding of the identifier. -/
def lookupSessions : List (String × BashSession) → String → Option BashSession
  | [], _ => none
  | p :: rest, sid => if p.1 = sid then some p.2 else lookupSessions rest sid

/-- `self.sessions.get(session_id)`. -/
def lookupSession (m : SessionManager) (sid : String) : Option BashSession :=
  lookupSessions m.sessions sid

/-- `self.sessions[session_id] = session` on an existing key: replace the
binding in place (dict assignment keeps the key's position). -/
def updateSessions : List (String × BashSession) → String → BashSession →
    List (String × BashSession)
  | [], _, _ => []
  | p :: rest, sid, s =>
    if p.1 = sid then (sid, s) :: updateSessions rest sid s
    else p :: updateSessions rest sid s

/-- `del self.sessions[session_id]`. -/
def removeSessions (l : List (String × BashSession)) (sid : String) :
    List (String × BashSession) :=
  l.filter (fun p => p.1 != sid)

/-- The error taxonomy of the module: the distinct exceptions its
operations raise (`ValueError` at lines 120 and 184, `RuntimeError` at
line 187, re-raised spawn and stdin-write failures at lines 162 and 200). -/
inductive SMError
  | duplicateSession (sid : String)
  | sessionNotFound (sid : String)
  | sessionDead (sid : String)
  | spawnError
  | brokenPipe
  deriving DecidableEq

/-- Python `dict.update`: `extra` overrides `base` (lines 129-131). -/
def envUpdate (base extra : List (String × String)) : List (String × String) :=
  base.filter (fun p => ((extra.find? (fun q => decide (q.1 = p.1))).isNone : Bool))
    ++ extra

/-- `create_session` (lines 100-162) called with an explicit identifier.
`osEnv` is the `os.environ` snapshot, `spawnFails` models `Popen`
raising.  On any failure the registry is untouched; otherwise a fresh
session is appended to the registry. -/
def create_session (m : SessionManager) (sid wd : String)
    (osEnv extra : List (String × String)) (now : Nat) (spawnFails : Bool) :
    Except SMError String × SessionManager :=
  if (lookupSession m sid).isSome then
    (Except.error (SMError.duplicateSession sid), m)
  else if spawnFails then (Except.error SMError.spawnError, m)
  else
    let sess : BashSession :=
      { id := sid, workingDirectory := wd, environment := envUpdate osEnv extra,
        createdAt := now, lastUsed := now, commandHistory := [],
        backgroundJobs := [], processAlive := true, outputQueue := [],
        errorQueue := [], stdinLog := [] }
    (Except.ok sid, ⟨m.sessions ++ [(sid, sess)]⟩)

/-- `execute_command` (lines 164-200) together with the dispatch into
`_execute_foreground_command` / `_execute_background_command` (lines
202-309).  `now` is the wall clock at `update_last_used`, `tstamp` the
microsecond reading that derives the completion marker (line 210), `sched`
resolves the asynchronous output timing, and `writeRaises` models the
stdin write (line 216) raising; that exception propagates (line 200) after
the history append and timestamp update already happened.  A background
command is rewritten with a trailing `" &"` and run through the same
foreground path (line 309); the `timeout` argument only bounds the
wall-clock polling, which the schedule length models. -/
def execute_command (m : SessionManager) (sid command : String) (timeout : Nat)
    (background : Bool) (now tstamp : Nat) (sched : ExecSchedule)
    (writeRaises : Bool) : Except SMError ExecResult × SessionManager :=
  match lookupSession m sid with
  | none => (Except.error (SMError.sessionNotFound sid), m)
  | some s =>
    if !s.processAlive then (Except.error (SMError.sessionDead sid), m)
    else
      let s1 := { s with lastUsed := now,
                         commandHistory := s.commandHistory ++ [command] }
      let marker := completion_marker tstamp
      let cmd := if background then command ++ " &" else command
      if writeRaises then
        (Except.error SMError.brokenPipe, ⟨updateSessions m.sessions sid s1⟩)
      else
        let s2 := { s1 with stdinLog := s1.stdinLog ++ [full_command cmd marker] }
        let F := execute_foreground marker sched s2.outputQueue s2.errorQueue
        (Except.ok F.result,
         ⟨updateSessions m.sessions sid
            { s2 with outputQueue := F.outQ, errorQueue := F.errQ }⟩)

/-- `kill_session` (lines 328-376).  `raisesErr` models an exception raised
anywhere inside the `try` block (job or process termination, lines
341-364): the handler removes the registry entry if still present and
returns `False` (lines 371-376); the success path removes it and returns
`True`. -/
def kill_session (m : SessionManager) (sid : String) (raisesErr : Bool) :
    Bool × SessionManager :=
  match lookupSession m sid with
  | none => (false, m)
  | some _ =>
    let m' : SessionManager := ⟨removeSessions m.sessions sid⟩
    if raisesErr then (false, m') else (true, m')

/-- One element of the `list_sessions` snapshot (lines 315-323). -/
structure SessionSummary where
  id : String
  workingDirectory : String
  createdAt : Nat
  lastUsed : Nat
  isAlive : Bool
  commandCount : Nat
  backgroundJobsCount : Nat
  deriving DecidableEq

/-- `list_sessions` (lines 311-326): a read-only snapshot in registry
order. -/
def list_sessions (m : SessionManager) : List SessionSummary :=
  m.sessions.map (fun p =>
    { id := p.2.id, workingDirectory := p.2.workingDirectory,
      createdAt := p.2.createdAt, lastUsed := p.2.lastUsed,
      isAlive := p.2.processAlive, commandCount := p.2.commandHistory.length,
      backgroundJobsCount := p.2.backgroundJobs.length })

/-- `get_session` (lines 378-380): a pure lookup. -/
def get_session (m : SessionManager) (sid : String) : Option BashSession :=
  lookupSession m sid

/-- `_cleanup_stale_sessions` (lines 86-98): collect the sessions that are
dead or idle for more than `_max_session_age = 3600` seconds, then invoke
`kill_session` on each; `raises` says which of those kills raise. -/
def cleanup_stale_sessions (m : SessionManager) (now : Nat)
    (raises : String → Bool) : SessionManager :=
  let stale := (m.sessions.filter
    (fun p => !p.2.processAlive || decide (3600 < now - p.2.lastUsed))).map
    (fun p => p.1)
  stale.foldl (fun acc sid => (kill_session acc sid (raises sid)).2) m

/-- The operations of the manager, for stating registry-wide invariants. -/
inductive Op
  | createOp (sid wd : String) (osEnv extra : List (String × String))
      (now : Nat) (spawnFails : Bool)
  | execOp (sid command : String) (timeout : Nat) (background : Bool)
      (now tstamp : Nat) (sched : ExecSchedule) (writeRaises : Bool)
  | killOp (sid : String) (raisesErr : Bool)
  | cleanupOp (now : Nat) (raises : String → Bool)
  | listOp
  | getOp (sid : String)

/-- The registry state after one operation (`list_sessions` and
`get_session` are read-only). -/
def applyOp (m : SessionManager) : Op → SessionManager
  | Op.createOp sid wd osEnv extra now sf => (create_session m sid wd osEnv extra now sf).2
  | Op.execOp sid c t bg now ts sched wr => (execute_command m sid c t bg now ts sched wr).2
  | Op.killOp sid r => (kill_session m sid r).2
  | Op.cleanupOp now raises => cleanup_stale_sessions m now raises
  | Op.listOp => m
  | Op.getOp _ => m

/-!
### Interleaving model of concurrent command dispatch

`execute_command` is a coroutine.  From its entry (line 164) to the stdin
write (lines 216-217) there is no suspension point, so the registry checks,
the history append, the marker generation and the write of
`full_command` happen atomically from the event loop's point of view.
After the write the coroutine suspends repeatedly (`await asyncio.sleep` at
lines 225, 265, 274) until it observes its completion marker (lines
250-251) — and nothing in the module takes a per-session lock, so while one
invocation is suspended the event loop is free to run another
`execute_command` on the same session.  The step relation below has exactly
those two atomic steps per in-flight invocation. -/

/-- Phase of one in-flight `execute_command` invocation. -/
inductive TaskPhase
  | ready
  | waitingMarker
  | finished
  deriving DecidableEq

/-- One in-flight invocation on the session: its command, the timestamp its
marker is derived from, and its phase. -/
structure CmdTask where
  command : String
  tstamp : Nat
  phase : TaskPhase
  deriving DecidableEq

/-- The session as seen by concurrent invocations: the ordered log of
payloads written to its stdin, and the in-flight tasks. -/
structure SessionRun where
  stdin : List String
  tasks : List CmdTask
  deriving DecidableEq

/-- One scheduler step.  `dispatch` runs an invocation from its entry up to
and including the stdin write (lines 164-217); `observe` resumes a
suspended invocation after its marker line arrived on stderr (lines
250-251). -/
inductive RunStep : SessionRun → SessionRun → Prop
  | dispatch (st : SessionRun) (i : Nat) (t : CmdTask) :
      st.tasks.get? i = some t → t.phase = TaskPhase.ready →
      RunStep st
        ⟨st.stdin ++ [full_command t.command (completion_marker t.tstamp)],
         st.tasks.set i { t with phase := TaskPhase.waitingMarker }⟩
  | observe (st : SessionRun) (i : Nat) (t : CmdTask) :
      st.tasks.get? i = some t → t.phase = TaskPhase.waitingMarker →
      RunStep st ⟨st.stdin, st.tasks.set i { t with phase := TaskPhase.finished }⟩

/-- Reachability under the scheduler. -/
def RunReach : SessionRun → SessionRun → Prop :=
  Relation.ReflTransGen RunStep

/-- Number of invocations that have written their command to stdin but have
not yet observed their completion marker. -/
def waitingCount (st : SessionRun) : Nat :=
  (st.tasks.filter (fun t => decide (t.phase = TaskPhase.waitingMarker))).length

/-!
### Injectivity of the decimal rendering of the marker timestamp

The completion marker embeds `Nat.repr` of the microsecond timestamp; the
lemmas below show that rendering is injective, so markers built from
distinct timestamps are distinct strings. -/

/-- Decimal value of a digit string, folded from the left, starting at
`a`. -/
def decValFrom (a : Nat) (cs : List Char) : Nat :=
  cs.foldl (fun acc c => 10 * acc + (c.toNat - 48)) a

theorem digitChar_toNat : ∀ d < 10, (Nat.digitChar d).toNat = d + 48 := by
  decide

theorem decValFrom_append (a : Nat) (l₁ l₂ : List Char) :
    decValFrom a (l₁ ++ l₂) = decValFrom (decValFrom a l₁) l₂ := by
  simp [decValFrom]

theorem toDigitsCore_append (fuel : Nat) :
    ∀ (n : Nat) (ds : List Char),
      Nat.toDigitsCore 10 fuel n ds = Nat.toDigitsCore 10 fuel n [] ++ ds := by
  induction fuel with
  | zero => intro n ds; simp [Nat.toDigitsCore]
  | succ fuel ih =>
    intro n ds
    simp only [Nat.toDigitsCore]
    by_cases h : n / 10 = 0
    · simp [h]
    · simp only [h, if_false]
      rw [ih (n / 10) (Nat.digitChar (n % 10) :: ds),
          ih (n / 10) [Nat.digitChar (n % 10)]]
      simp

theorem decVal_toDigitsCore (fuel : Nat) :
    ∀ n : Nat, n < 10 ^ fuel →
      decValFrom 0 (Nat.toDigitsCore 10 fuel n []) = n := by
  induction fuel with
  | zero =>
    intro n hn
    interval_cases n
    simp [Nat.toDigitsCore, decValFrom]
  | succ fuel ih =>
    intro n hn
    simp only [Nat.toDigitsCore]
    by_cases h : n / 10 = 0
    · have hn10 : n < 10 := by omega
      simp only [h, if_true]
      have hdc : (Nat.digitChar (n % 10)).toNat = n + 48 := by
        rw [Nat.mod_eq_of_lt hn10] at *
        exact digitChar_toNat n hn10
      simp [decValFrom, hdc]
    · simp only [h, if_false]
      rw [toDigitsCore_append]
      rw [decValFrom_append]
      have hdiv : n / 10 < 10 ^ fuel := by
        rw [Nat.div_lt_iff_lt_mul (by norm_num)]
        calc n < 10 ^ (fuel + 1) := hn
        _ = 10 ^ fuel * 10 := by ring
      rw [ih (n / 10) hdiv]
      have hdc := digitChar_toNat (n % 10) (Nat.mod_lt _ (by norm_num))
      simp only [decValFrom, List.foldl_cons, List.foldl_nil, hdc]
      omega

theorem decVal_repr (n : Nat) : decValFrom 0 (Nat.repr n).data = n := by
  have hfuel : n < 10 ^ (n + 1) := by
    calc n < 10 ^ n := Nat.lt_pow_self (by norm_num) n
    _ ≤ 10 ^ (n + 1) := Nat.pow_le_pow_right (by norm_num) (Nat.le_succ n)
  have : (Nat.repr n).data = Nat.toDigitsCore 10 (n + 1) n [] := rfl
  rw [this, decVal_toDigitsCore (n + 1) n hfuel]

theorem Nat_repr_injective : Function.Injective Nat.repr := by
  intro m n h
  have hd : (Nat.repr m).data = (Nat.repr n).data := by rw [h]
  calc m = decValFrom 0 (Nat.repr m).data := (decVal_repr m).symm
  _ = decValFrom 0 (Nat.repr n).data := by rw [hd]
  _ = n := decVal_repr n

/-!
### Concrete states used by the evaluations below
-/

/-- A live session, freshly created. -/
def demoSession : BashSession :=
  { id := "s1", workingDirectory := "/tmp", environment := [],
    createdAt := 0, lastUsed := 0, commandHistory := [], backgroundJobs := [],
    processAlive := true, outputQueue := [], errorQueue := [], stdinLog := [] }

/-- A registry holding just `demoSession` under `"s1"`. -/
def demoManager : SessionManager := ⟨[("s1", demoSession)]⟩

/-!
### Claims
-/

/-- **C1** (code bug): `kill_session` on a registered identifier removes the
registry entry regardless of whether termination raised, but on the path
where termination raised it returns `False` (line 376) even though the
identifier was registered — contradicting both the claim and the
function's own docstring ("True if session was killed, False if not
found", lines 334-335).  Evaluated here at the failing input: a registered
session whose termination raises. -/
theorem C1_kill_session_error_path :
    (lookupSession demoManager "s1").isSome = true
    ∧ kill_session demoManager "s1" false = (true, ⟨[]⟩)
    ∧ kill_session demoManager "s1" true = (false, ⟨[]⟩) := by
  refine ⟨rfl, rfl, rfl⟩

/-- **C2** (confirmed): for every foreground execution that runs the
protocol to the end, exactly one of the completion flag and the timed-out
flag is true (`timeout = not command_complete`, lines 296-297); a run
whose polling loop saw the marker returns `completed = true`,
`timeout = false`, and a run that did not complete returns
`timeout = true`. -/
theorem C2_completed_xor_timeout (marker : String) (sched : ExecSchedule)
    (outQ errQ : List Entry) :
    ((execute_foreground marker sched outQ errQ).result.timeout
      = !(execute_foreground marker sched outQ errQ).result.completed)
    ∧ ((pollLoop marker sched.main [] [] outQ errQ).complete = true →
        (execute_foreground marker sched outQ errQ).result.completed = true
        ∧ (execute_foreground marker sched outQ errQ).result.timeout = false)
    ∧ ((execute_foreground marker sched outQ errQ).result.completed = false →
        (execute_foreground marker sched outQ errQ).result.timeout = true) := by
  by_cases h1 : (pollLoop marker sched.main [] [] outQ errQ).complete = true
  · simp [execute_foreground, h1]
  · by_cases h2 : ((pollLoop marker sched.main [] [] outQ errQ).outLines != []
        || (pollLoop marker sched.main [] [] outQ errQ).errLines != []) = true
    · simp [execute_foreground, h1, h2]
    · simp [execute_foreground, h1, h2]

/-- **C2** witness: the second and third clauses, discharged on a run whose
only iteration sees the marker on stderr. -/
theorem C2_completed_xor_timeout_witness :
    (execute_foreground (completion_marker 0)
        ⟨[⟨[], [⟨StreamTag.stderr, completion_marker 0 ++ "\n"⟩]⟩], []⟩
        [] []).result.completed = true := by
  exact (C2_completed_xor_timeout (completion_marker 0)
    ⟨[⟨[], [⟨StreamTag.stderr, completion_marker 0 ++ "\n"⟩]⟩], []⟩
    [] []).2.1 (by decide) |>.1

/-- **C4** counterexample: the completion marker is derived from the
wall-clock microsecond reading, not from a monotonically distinct value;
two distinct invocations that read the same microsecond timestamp produce
the identical marker string. -/
theorem C4_counterexample :
    ¬ (∀ (ts : List Nat) (i j : Fin ts.length), i ≠ j →
        completion_marker (ts.get i) ≠ completion_marker (ts.get j)) := by
  intro h
  exact h [5, 5] ⟨0, by decide⟩ ⟨1, by decide⟩ (by decide) rfl

/-- **C4** amended: markers of two invocations are distinct whenever the
microsecond timestamps read at line 210 are distinct — the marker string
is an injective function of the timestamp. -/
theorem C4_marker_injective (t₁ t₂ : Nat) (h : t₁ ≠ t₂) :
    completion_marker t₁ ≠ completion_marker t₂ := by
  intro he
  apply h
  have hd : (completion_marker t₁).data = (completion_marker t₂).data := by
    rw [he]
  simp only [completion_marker, String.data_append, List.append_assoc] at hd
  have h₁ := List.append_cancel_left hd
  have h₂ := List.append_cancel_right h₁
  exact Nat_repr_injective (by apply String.ext; exact h₂)

/-- **C4** amended, witness at timestamps 3 and 5. -/
theorem C4_marker_injective_witness :
    completion_marker 3 ≠ completion_marker 5 :=
  C4_marker_injective 3 5 (by decide)

/-- **C7** (confirmed): `create_session` with an already-registered
identifier fails with the duplicate-session error before any mutation
(lines 119-120): the registry — and with it every existing session's
state — is returned unchanged. -/
theorem C7_create_duplicate_frame (m : SessionManager) (sid wd : String)
    (osEnv extra : List (String × String)) (now : Nat) (spawnFails : Bool)
    (h : (lookupSession m sid).isSome = true) :
    create_session m sid wd osEnv extra now spawnFails
      = (Except.error (SMError.duplicateSession sid), m) := by
  simp [create_session, h]

/-- **C7** witness: creating `"s1"` again over `demoManager` fails and
leaves the registry identical. -/
theorem C7_create_duplicate_frame_witness :
    (lookupSession demoManager "s1").isSome = true
    ∧ create_session demoManager "s1" "/x" [] [] 9 false
        = (Except.error (SMError.duplicateSession "s1"), demoManager) :=
  ⟨rfl, C7_create_duplicate_frame demoManager "s1" "/x" [] [] 9 false rfl⟩

/-- The recheck phase consults at most `fuel` scheduled rounds of arrivals:
the schedule beyond the fuel bound is irrelevant. -/
theorem recheckRounds_take (marker : String) (fuel : Nat) :
    ∀ (sched : List SchedStep) (outQ errQ : List Entry),
      recheckRounds marker fuel sched outQ errQ
        = recheckRounds marker fuel (sched.take fuel) outQ errQ := by
  induction fuel with
  | zero => intro sched outQ errQ; rfl
  | succ fuel ih =>
    intro sched outQ errQ
    cases sched with
    | nil => rfl
    | cons s r =>
      simp only [recheckRounds, List.take, List.headD, List.tail]
      split
      · rfl
      · exact ih r _ []

/-- **C3** counterexample: the post-timeout rechecks run only when some
output was accumulated (`if not command_complete and (stdout_lines or
stderr_lines)`, line 272).  A run whose polling loop exits by timeout with
nothing accumulated performs no recheck: with the identical recheck-window
arrivals (the marker already in flight on stderr), the silent run is
declared timed out, while a run that accumulated one stdout line is
completed by the recheck. -/
theorem C3_counterexample :
    (execute_foreground (completion_marker 0)
        ⟨[⟨[], []⟩], [⟨[], [⟨StreamTag.stderr, completion_marker 0 ++ "\n"⟩]⟩]⟩
        [] []).result = ⟨"", "", false, true⟩
    ∧ (execute_foreground (completion_marker 0)
        ⟨[⟨[⟨StreamTag.stdout, "hi\n"⟩], []⟩],
          [⟨[], [⟨StreamTag.stderr, completion_marker 0 ++ "\n"⟩]⟩]⟩
        [] []).result = ⟨"hi", "", true, false⟩ := by
  refine ⟨by decide, by decide⟩

/-- **C3** amended: only when the polling loop exits by timeout with at
least one accumulated output line does the protocol perform the additional
low-latency rechecks; they are bounded — at most 5 rounds are consulted —
and the run's completion flag is exactly the outcome of those rechecks.
A timed-out run with no accumulated output is declared timed out without
any recheck (see the counterexample). -/
theorem C3_recheck_only_with_output (marker : String) (sched : ExecSchedule)
    (outQ errQ : List Entry)
    (h1 : (pollLoop marker sched.main [] [] outQ errQ).complete = false)
    (h2 : ((pollLoop marker sched.main [] [] outQ errQ).outLines != []
        || (pollLoop marker sched.main [] [] outQ errQ).errLines != []) = true) :
    (execute_foreground marker sched outQ errQ).result.completed
      = (recheckRounds marker 5 sched.recheck
          (pollLoop marker sched.main [] [] outQ errQ).outQ
          (pollLoop marker sched.main [] [] outQ errQ).errQ).found
    ∧ recheckRounds marker 5 sched.recheck
          (pollLoop marker sched.main [] [] outQ errQ).outQ
          (pollLoop marker sched.main [] [] outQ errQ).errQ
      = recheckRounds marker 5 (sched.recheck.take 5)
          (pollLoop marker sched.main [] [] outQ errQ).outQ
          (pollLoop marker sched.main [] [] outQ errQ).errQ := by
  constructor
  · simp [execute_foreground, h1, h2]
  · exact recheckRounds_take marker 5 sched.recheck _ _

/-- **C3** amended, witness: a run that accumulated one stdout line and
finds the marker during the first recheck round. -/
theorem C3_recheck_only_with_output_witness :
    (execute_foreground (completion_marker 0)
        ⟨[⟨[⟨StreamTag.stdout, "hi\n"⟩], []⟩],
          [⟨[], [⟨StreamTag.stderr, completion_marker 0 ++ "\n"⟩]⟩]⟩
        [] []).result.completed
      = (recheckRounds (completion_marker 0) 5
          [⟨[], [⟨StreamTag.stderr, completion_marker 0 ++ "\n"⟩]⟩]
          (pollLoop (completion_marker 0)
            [⟨[⟨StreamTag.stdout, "hi\n"⟩], []⟩] [] [] [] []).outQ
          (pollLoop (completion_marker 0)
            [⟨[⟨StreamTag.stdout, "hi\n"⟩], []⟩] [] [] [] []).errQ).found :=
  (C3_recheck_only_with_output (completion_marker 0)
    ⟨[⟨[⟨StreamTag.stdout, "hi\n"⟩], []⟩],
      [⟨[], [⟨StreamTag.stderr, completion_marker 0 ++ "\n"⟩]⟩]⟩
    [] [] (by decide) (by decide)).1

/-- **C5** (confirmed): `execute_command` raises the session-not-found
error exactly when the identifier is unregistered (lines 182-184), the
session-dead error exactly when it is registered with an exited process
(lines 186-187), and otherwise — when the stdin write does not raise — it
returns a result record, never an exception for a timeout. -/
theorem C5_execute_command_errors (m : SessionManager) (sid command : String)
    (timeout : Nat) (background : Bool) (now tstamp : Nat)
    (sched : ExecSchedule) (writeRaises : Bool) :
    ((execute_command m sid command timeout background now tstamp sched
        writeRaises).1 = Except.error (SMError.sessionNotFound sid)
      ↔ lookupSession m sid = none)
    ∧ ((execute_command m sid command timeout background now tstamp sched
        writeRaises).1 = Except.error (SMError.sessionDead sid)
      ↔ ∃ s, lookupSession m sid = some s ∧ s.processAlive = false)
    ∧ (∀ s, lookupSession m sid = some s → s.processAlive = true →
        writeRaises = false →
        ∃ r, (execute_command m sid command timeout background now tstamp sched
          writeRaises).1 = Except.ok r) := by
  cases hls : lookupSession m sid with
  | none => simp [execute_command, hls]
  | some s =>
    by_cases ha : s.processAlive
    · by_cases hw : writeRaises <;> simp [execute_command, hls, ha, hw]
    · simp [execute_command, hls, ha]

/-- **C5** witness: a live registered session with a non-raising write
returns a result record. -/
theorem C5_execute_command_errors_witness :
    ∃ r, (execute_command demoManager "s1" "echo hi" 30 false 1 2
      ⟨[], []⟩ false).1 = Except.ok r :=
  (C5_execute_command_errors demoManager "s1" "echo hi" 30 false 1 2
    ⟨[], []⟩ false).2.2 demoSession rfl rfl rfl

/-- Every line kept by the stdout drain is non-empty. -/
theorem drainStdout_ne_empty :
    ∀ (entries : List Entry) (l : String), l ∈ drainStdout entries → l ≠ "" := by
  intro entries
  induction entries with
  | nil => intro l h; simp [drainStdout] at h
  | cons e rest ih =>
    intro l h
    simp only [drainStdout] at h
    split at h
    · split at h
      · rcases List.mem_cons.mp h with h1 | h1
        · subst h1; simp_all [bne_iff_ne]
        · exact ih l h1
      · exact ih l h
    · exact ih l h

/-- Every line the stderr drain accumulates beyond the initial accumulator
is non-empty, is not a `"bash-"` prompt artifact, and does not contain the
marker. -/
theorem drainStderr_lines_spec (marker : String) :
    ∀ (entries : List Entry) (acc : List String) (l : String),
      l ∈ (drainStderr marker entries acc).lines →
      l ∈ acc ∨ (l ≠ "" ∧ strStartsWith "bash-" l = false
        ∧ strContains marker l = false) := by
  intro entries
  induction entries with
  | nil => intro acc l h; exact Or.inl h
  | cons e rest ih =>
    intro acc l h
    simp only [drainStderr] at h
    split at h
    · split at h
      · exact Or.inl h
      · split at h
        · rcases ih _ l h with h1 | h1
          · rcases List.mem_append.mp h1 with h2 | h2
            · exact Or.inl h2
            · right
              have hl : l = rstripNewline e.line := List.mem_singleton.mp h2
              subst hl
              simp_all [bne_iff_ne]
          · exact Or.inr h1
        · exact ih _ l h
    · exact ih _ l h

/-- The stderr drain reports success exactly when some entry it was handed
is a stderr line whose cleaned text contains the marker. -/
theorem drainStderr_found_iff (marker : String) :
    ∀ (entries : List Entry) (acc : List String),
      (drainStderr marker entries acc).found = true
      ↔ ∃ e ∈ entries, e.stream = StreamTag.stderr
          ∧ strContains marker (rstripNewline e.line) = true := by
  intro entries
  induction entries with
  | nil => intro acc; simp [drainStderr]
  | cons e rest ih =>
    intro acc
    simp only [drainStderr]
    split
    · split
      · simp_all
      · split
        · rw [ih]
          simp_all
        · rw [ih]
          simp_all
    · rw [ih]
      simp_all

/-- Membership in the polling loop's captured stdout lines, beyond the
initial accumulator, implies non-emptiness. -/
theorem pollLoop_outLines_spec (marker : String) :
    ∀ (sched : List SchedStep) (so se : List String) (outQ errQ : List Entry)
      (l : String), l ∈ (pollLoop marker sched so se outQ errQ).outLines →
      l ∈ so ∨ l ≠ "" := by
  intro sched
  induction sched with
  | nil => intro so se outQ errQ l h; exact Or.inl h
  | cons step rest ih =>
    intro so se outQ errQ l h
    simp only [pollLoop] at h
    split at h
    · rcases List.mem_append.mp h with h1 | h1
      · exact Or.inl h1
      · exact Or.inr (drainStdout_ne_empty _ l h1)
    · rcases ih _ _ _ _ l h with h1 | h1
      · rcases List.mem_append.mp h1 with h2 | h2
        · exact Or.inl h2
        · exact Or.inr (drainStdout_ne_empty _ l h2)
      · exact Or.inr h1

/-- Membership in the polling loop's captured stderr lines, beyond the
initial accumulator, implies the line is non-empty, is not a prompt
artifact, and does not contain the marker. -/
theorem pollLoop_errLines_spec (marker : String) :
    ∀ (sched : List SchedStep) (so se : List String) (outQ errQ : List Entry)
      (l : String), l ∈ (pollLoop marker sched so se outQ errQ).errLines →
      l ∈ se ∨ (l ≠ "" ∧ strStartsWith "bash-" l = false
        ∧ strContains marker l = false) := by
  intro sched
  induction sched with
  | nil => intro so se outQ errQ l h; exact Or.inl h
  | cons step rest ih =>
    intro so se outQ errQ l h
    simp only [pollLoop] at h
    split at h
    · exact drainStderr_lines_spec marker _ se l h
    · rcases ih _ _ _ _ l h with h1 | h1
      · exact drainStderr_lines_spec marker _ se l h1
      · exact Or.inr h1

/-- The polling loop ends with success exactly when at least one iteration
ran and some entry of the initial error queue or of the scheduled stderr
arrivals is a stderr line whose cleaned text contains the marker. -/
theorem pollLoop_complete_iff (marker : String) :
    ∀ (sched : List SchedStep) (so se : List String) (outQ errQ : List Entry),
      (pollLoop marker sched so se outQ errQ).complete = true
      ↔ sched ≠ [] ∧ ∃ e ∈ errQ ++ (sched.map SchedStep.errArr).flatten,
          e.stream = StreamTag.stderr
          ∧ strContains marker (rstripNewline e.line) = true := by
  intro sched
  induction sched with
  | nil => intro so se outQ errQ; simp [pollLoop]
  | cons step rest ih =>
    intro so se outQ errQ
    simp only [pollLoop]
    split
    · rename_i hfound
      have := (drainStderr_found_iff marker (errQ ++ step.errArr) se).mp hfound
      simp only [LoopOut.complete]
      constructor
      · intro _
        refine ⟨by simp, ?_⟩
        rcases this with ⟨e, he, hp⟩
        refine ⟨e, ?_, hp⟩
        rcases List.mem_append.mp he with h1 | h1
        · exact List.mem_append.mpr (Or.inl h1)
        · refine List.mem_append.mpr (Or.inr ?_)
          simp [List.mem_flatten]
          exact Or.inl h1
      · intro _; trivial
    · rename_i hnf
      have hnotfound : ¬ ∃ e ∈ errQ ++ step.errArr,
          e.stream = StreamTag.stderr
          ∧ strContains marker (rstripNewline e.line) = true := by
        intro hex
        exact hnf ((drainStderr_found_iff marker (errQ ++ step.errArr) se).mpr hex)
      rw [ih]
      constructor
      · rintro ⟨hne, e, he, hp⟩
        refine ⟨by simp, e, ?_, hp⟩
        simp only [List.nil_append] at he
        rcases List.mem_flatten.mp he with ⟨s, hs, hes⟩
        rcases (List.mem_map.mp hs) with ⟨st, hst, rfl⟩
        refine List.mem_append.mpr (Or.inr ?_)
        refine List.mem_flatten.mpr ⟨st.errArr, ?_, hes⟩
        exact List.mem_map.mpr ⟨st, List.mem_cons_of_mem _ hst, rfl⟩
      · rintro ⟨_, e, he, hp⟩
        rcases List.mem_append.mp he with h1 | h1
        · exact absurd ⟨e, List.mem_append.mpr (Or.inl h1), hp⟩ hnotfound
        · rcases List.mem_flatten.mp h1 with ⟨s, hs, hes⟩
          rcases List.mem_map.mp hs with ⟨st, hst, rfl⟩
          rcases List.mem_cons.mp hst with h2 | h2
          · subst h2
            exact absurd ⟨e, List.mem_append.mpr (Or.inr hes), hp⟩ hnotfound
          · have hrest : rest ≠ [] := by
              intro hr; subst hr; simp at h2
            refine ⟨hrest, e, ?_, hp⟩
            simp only [List.nil_append]
            exact List.mem_flatten.mpr ⟨st.errArr,
              List.mem_map.mpr ⟨st, h2, rfl⟩, hes⟩

/-- **C6** (confirmed): during the polling loop, empty lines are dropped
from both captured streams (lines 237 and 253), stderr lines that look
like shell prompt artifacts (`"bash-"` prefix) are excluded from the
captured stderr (line 253), and a stderr line containing the completion
marker ends the loop immediately with success and is never accumulated
(lines 250-252): the loop completes exactly when a marker-bearing stderr
entry was available to some iteration. -/
theorem C6_polling_filters (marker : String) (sched : List SchedStep)
    (outQ errQ : List Entry) :
    (∀ l ∈ (pollLoop marker sched [] [] outQ errQ).outLines, l ≠ "")
    ∧ (∀ l ∈ (pollLoop marker sched [] [] outQ errQ).errLines,
        l ≠ "" ∧ strStartsWith "bash-" l = false
        ∧ strContains marker l = false)
    ∧ ((pollLoop marker sched [] [] outQ errQ).complete = true
      ↔ sched ≠ [] ∧ ∃ e ∈ errQ ++ (sched.map SchedStep.errArr).flatten,
          e.stream = StreamTag.stderr
          ∧ strContains marker (rstripNewline e.line) = true) := by
  refine ⟨?_, ?_, pollLoop_complete_iff marker sched [] [] outQ errQ⟩
  · intro l h
    rcases pollLoop_outLines_spec marker sched [] [] outQ errQ l h with h1 | h1
    · simp at h1
    · exact h1
  · intro l h
    rcases pollLoop_errLines_spec marker sched [] [] outQ errQ l h with h1 | h1
    · simp at h1
    · exact h1

/-- **C6** witness: a run producing the stdout line `"hi"` and the stderr
line `"oops"` past a prompt artifact, an empty line and the marker. -/
theorem C6_polling_filters_witness :
    "hi" ≠ ""
    ∧ "oops" ≠ "" ∧ strStartsWith "bash-" "oops" = false
      ∧ strContains (completion_marker 0) "oops" = false :=
  ⟨(C6_polling_filters (completion_marker 0)
      [⟨[⟨StreamTag.stdout, "hi\n"⟩],
        [⟨StreamTag.stderr, "bash-5.1$\n"⟩, ⟨StreamTag.stderr, "\n"⟩,
         ⟨StreamTag.stderr, "oops\n"⟩]⟩] [] []).1 "hi" (by decide),
   (C6_polling_filters (completion_marker 0)
      [⟨[⟨StreamTag.stdout, "hi\n"⟩],
        [⟨StreamTag.stderr, "bash-5.1$\n"⟩, ⟨StreamTag.stderr, "\n"⟩,
         ⟨StreamTag.stderr, "oops\n"⟩]⟩] [] []).2.1 "oops" (by decide)⟩

/-- The recheck phase never reads the output queue: whatever was queued
when it started is still queued, in order, when it ends. -/
theorem recheckRounds_outQ_mono (marker : String) :
    ∀ (fuel : Nat) (sched : List SchedStep) (outQ errQ : List Entry),
      outQ <+: (recheckRounds marker fuel sched outQ errQ).outQ := by
  intro fuel
  induction fuel with
  | zero => intro sched outQ errQ; exact List.prefix_refl _
  | succ fuel ih =>
    intro sched outQ errQ
    simp only [recheckRounds]
    split
    · exact List.prefix_append _ _
    · exact List.IsPrefix.trans (List.prefix_append _ _) (ih _ _ [])

/-- **C10** (confirmed): entries arriving during the post-timeout recheck
phase never reach the returned result: the rechecks scan only the stderr
queue and only for the marker (lines 276-283), so the result's `stdout`
and `stderr` fields are exactly the polling loop's accumulations — they do
not depend on what arrives during the rechecks — and every stdout entry
queued when the rechecks start is still queued (in order, possibly
followed by recheck-window arrivals) for the next command's capture. -/
theorem C10_recheck_output_excluded (marker : String)
    (ms rs : List SchedStep) (outQ errQ : List Entry) :
    ((execute_foreground marker ⟨ms, rs⟩ outQ errQ).result.stdout
      = (execute_foreground marker ⟨ms, []⟩ outQ errQ).result.stdout)
    ∧ ((execute_foreground marker ⟨ms, rs⟩ outQ errQ).result.stderr
      = (execute_foreground marker ⟨ms, []⟩ outQ errQ).result.stderr)
    ∧ (pollLoop marker ms [] [] outQ errQ).outQ
        <+: (execute_foreground marker ⟨ms, rs⟩ outQ errQ).outQ := by
  by_cases h1 : (pollLoop marker ms [] [] outQ errQ).complete = true
  · simp [execute_foreground, h1]
  · by_cases h2 : ((pollLoop marker ms [] [] outQ errQ).outLines != []
        || (pollLoop marker ms [] [] outQ errQ).errLines != []) = true
    · refine ⟨?_, ?_, ?_⟩ <;> simp [execute_foreground, h1, h2]
      exact recheckRounds_outQ_mono marker 5 rs _ _
    · simp [execute_foreground, h1, h2]

/-- A binding found in a registry is still found, unchanged, after new
sessions are appended at the end. -/
theorem lookupSessions_append_left (l : List (String × BashSession))
    (sid : String) (s : BashSession) (h : lookupSessions l sid = some s)
    (l₂ : List (String × BashSession)) :
    lookupSessions (l ++ l₂) sid = some s := by
  induction l with
  | nil => exact absurd h (by simp [lookupSessions])
  | cons p rest ih =>
    simp only [lookupSessions, List.cons_append] at h ⊢
    by_cases hp : p.1 = sid
    · rw [if_pos hp] at h ⊢
      exact h
    · rw [if_neg hp] at h ⊢
      exact ih h

/-- Updating one identifier's binding leaves every other lookup alone. -/
theorem lookupSessions_update_ne (l : List (String × BashSession))
    (sid sid' : String) {s : BashSession} (h : sid' ≠ sid) :
    lookupSessions (updateSessions l sid s) sid' = lookupSessions l sid' := by
  induction l with
  | nil => rfl
  | cons p rest ih =>
    simp only [updateSessions]
    by_cases hp : p.1 = sid
    · rw [if_pos hp]
      simp only [lookupSessions]
      rw [if_neg (fun he => h he.symm), if_neg (by rw [hp]; exact fun he => h he.symm)]
      exact ih
    · rw [if_neg hp]
      simp only [lookupSessions]
      by_cases hq : p.1 = sid'
      · rw [if_pos hq, if_pos hq]
      · rw [if_neg hq, if_neg hq]
        exact ih

/-- Updating a bound identifier makes its lookup the new session. -/
theorem lookupSessions_update_self (l : List (String × BashSession))
    (sid : String) {s₀ : BashSession} (h : lookupSessions l sid = some s₀)
    (s : BashSession) :
    lookupSessions (updateSessions l sid s) sid = some s := by
  induction l with
  | nil => exact absurd h (by simp [lookupSessions])
  | cons p rest ih =>
    simp only [updateSessions]
    by_cases hp : p.1 = sid
    · rw [if_pos hp]
      simp [lookupSessions]
    · rw [if_neg hp]
      simp only [lookupSessions] at h ⊢
      rw [if_neg hp] at h ⊢
      exact ih h

/-- After removal, the removed identifier has no binding. -/
theorem lookupSessions_remove_self (l : List (String × BashSession))
    (sid : String) :
    lookupSessions (removeSessions l sid) sid = none := by
  induction l with
  | nil => rfl
  | cons p rest ih =>
    simp only [removeSessions, List.filter_cons]
    by_cases hp : p.1 = sid
    · have hb : (p.1 != sid) = false := by simp [bne_iff_ne, hp]
      rw [hb]
      exact ih
    · have hb : (p.1 != sid) = true := by simp [bne_iff_ne, hp]
      rw [hb]
      simp only [if_true, lookupSessions]
      rw [if_neg hp]
      exact ih

/-- Removing one identifier leaves every other lookup alone. -/
theorem lookupSessions_remove_ne (l : List (String × BashSession))
    (sid sid' : String) (h : sid' ≠ sid) :
    lookupSessions (removeSessions l sid) sid' = lookupSessions l sid' := by
  induction l with
  | nil => rfl
  | cons p rest ih =>
    simp only [removeSessions, List.filter_cons]
    by_cases hp : p.1 = sid
    · have hb : (p.1 != sid) = false := by simp [bne_iff_ne, hp]
      rw [hb, if_neg (by simp : ¬false = true)]
      simp only [lookupSessions]
      rw [if_neg (show ¬p.1 = sid' by rw [hp]; exact fun he => h he.symm)]
      exact ih
    · have hb : (p.1 != sid) = true := by simp [bne_iff_ne, hp]
      rw [hb]
      simp only [if_true, lookupSessions]
      by_cases hq : p.1 = sid'
      · rw [if_pos hq, if_pos hq]
      · rw [if_neg hq, if_neg hq]
        exact ih

/-- `kill_session` only removes bindings: any binding found afterwards was
already there, unchanged. -/
theorem kill_session_lookup (m : SessionManager) (sid : String) (r : Bool)
    (sid' : String) (s' : BashSession)
    (h : lookupSession (kill_session m sid r).2 sid' = some s') :
    lookupSession m sid' = some s' := by
  unfold kill_session at h
  cases hls : lookupSession m sid with
  | none => rw [hls] at h; exact h
  | some s₀ =>
    rw [hls] at h
    have hrem : lookupSessions (removeSessions m.sessions sid) sid'
        = some s' := by
      cases r with
      | false => exact h
      | true => exact h
    by_cases hsid : sid' = sid
    · subst hsid
      rw [lookupSessions_remove_self m.sessions sid'] at hrem
      cases hrem
    · rw [lookupSessions_remove_ne m.sessions sid sid' hsid] at hrem
      exact hrem

/-- Iterated kills (the reaper's sweep) only remove bindings. -/
theorem foldl_kill_lookup (raises : String → Bool) :
    ∀ (ids : List String) (m : SessionManager) (sid' : String)
      (s' : BashSession),
      lookupSession
        (ids.foldl (fun acc sid => (kill_session acc sid (raises sid)).2) m)
        sid' = some s' →
      lookupSession m sid' = some s' := by
  intro ids
  induction ids with
  | nil => intro m sid' s' h; exact h
  | cons i rest ih =>
    intro m sid' s' h
    exact kill_session_lookup m i (raises i) sid' s' (ih _ sid' s' h)

/-- **C8** (confirmed): command history is append-only for the life of a
session.  First conjunct: across every operation of the manager, a session
present before and after has its old history as a prefix of its new one —
no operation removes or reorders entries.  Second conjunct: a dispatch
through `execute_command` that passes the not-found and liveness checks
appends exactly the submitted command string (line 190) and sets the
last-used timestamp to the dispatch time (line 189), even when the stdin
write then raises. -/
theorem C8_history_append_only :
    (∀ (m : SessionManager) (op : Op) (sid : String) (s s' : BashSession),
      lookupSession m sid = some s →
      lookupSession (applyOp m op) sid = some s' →
      s.commandHistory <+: s'.commandHistory)
    ∧ (∀ (m : SessionManager) (sid command : String) (timeout : Nat)
        (background : Bool) (now tstamp : Nat) (sched : ExecSchedule)
        (writeRaises : Bool) (s : BashSession),
      lookupSession m sid = some s → s.processAlive = true →
      ∃ s', lookupSession (execute_command m sid command timeout background
          now tstamp sched writeRaises).2 sid = some s'
        ∧ s'.commandHistory = s.commandHistory ++ [command]
        ∧ s'.lastUsed = now) := by
  have hexec : ∀ (m : SessionManager) (sid cmd : String) (t : Nat) (bg : Bool)
      (now ts : Nat) (sch : ExecSchedule) (wr : Bool) (s : BashSession),
      lookupSession m sid = some s → s.processAlive = true →
      ∃ X, (execute_command m sid cmd t bg now ts sch wr).2
          = ⟨updateSessions m.sessions sid X⟩
        ∧ X.commandHistory = s.commandHistory ++ [cmd] ∧ X.lastUsed = now := by
    intro m sid cmd t bg now ts sch wr s h ha
    cases wr with
    | true =>
      exact ⟨{ s with
                lastUsed := now
                commandHistory := s.commandHistory ++ [cmd] },
        by simp [execute_command, h, ha], rfl, rfl⟩
    | false =>
      refine ⟨{ s with
                lastUsed := now
                commandHistory := s.commandHistory ++ [cmd]
                stdinLog := s.stdinLog ++
                  [full_command (if bg then cmd ++ " &" else cmd)
                    (completion_marker ts)]
                outputQueue := (execute_foreground (completion_marker ts)
                  sch s.outputQueue s.errorQueue).outQ
                errorQueue := (execute_foreground (completion_marker ts)
                  sch s.outputQueue s.errorQueue).errQ }, ?_, rfl, rfl⟩
      simp [execute_command, h, ha]
  constructor
  · intro m op sid s s' h h'
    have hL : lookupSessions m.sessions sid = some s := h
    cases op with
    | createOp sid0 wd osEnv extra now sf =>
      have hcreate : ∃ l₂,
          (applyOp m (Op.createOp sid0 wd osEnv extra now sf)).sessions
            = m.sessions ++ l₂ := by
        simp only [applyOp, create_session]
        by_cases hdup : (lookupSession m sid0).isSome = true
        · exact ⟨[], by simp [hdup]⟩
        · by_cases hsf : sf = true
          · exact ⟨[], by simp [hdup, hsf]⟩
          · exact ⟨[(sid0, { id := sid0
                             workingDirectory := wd
                             environment := envUpdate osEnv extra
                             createdAt := now
                             lastUsed := now
                             commandHistory := []
                             backgroundJobs := []
                             processAlive := true
                             outputQueue := []
                             errorQueue := []
                             stdinLog := [] })], by simp [hdup, hsf]⟩
      rcases hcreate with ⟨l₂, hm⟩
      rw [show lookupSession (applyOp m (Op.createOp sid0 wd osEnv extra now
            sf)) sid = lookupSessions (applyOp m (Op.createOp sid0 wd osEnv
            extra now sf)).sessions sid from rfl, hm,
          lookupSessions_append_left m.sessions sid s hL l₂] at h'
      injection h' with he
      subst he
      exact List.prefix_refl _
    | execOp sid0 cmd t bg now ts sch wr =>
      simp only [applyOp] at h'
      cases hls : lookupSession m sid0 with
      | none =>
        rw [show (execute_command m sid0 cmd t bg now ts sch wr).2 = m by
          simp [execute_command, hls]] at h'
        rw [h] at h'
        injection h' with he
        subst he
        exact List.prefix_refl _
      | some s₀ =>
        by_cases ha : s₀.processAlive = true
        · rcases hexec m sid0 cmd t bg now ts sch wr s₀ hls ha
            with ⟨X, hm, hXh, hXu⟩
          rw [hm] at h'
          by_cases hsid : sid = sid0
          · subst hsid
            have hss : s₀ = s := by
              rw [h] at hls
              injection hls with he
              exact he.symm
            subst hss
            have h2 : lookupSessions (updateSessions m.sessions sid X) sid
                = some X := lookupSessions_update_self m.sessions sid hL X
            rw [show lookupSession
                (⟨updateSessions m.sessions sid X⟩ : SessionManager) sid
                = lookupSessions (updateSessions m.sessions sid X) sid
                from rfl, h2] at h'
            injection h' with he
            subst he
            rw [hXh]
            exact List.prefix_append _ _
          · rw [show lookupSession
                (⟨updateSessions m.sessions sid0 X⟩ : SessionManager) sid
                = lookupSessions (updateSessions m.sessions sid0 X) sid
                from rfl,
              lookupSessions_update_ne m.sessions sid0 sid hsid, hL] at h'
            injection h' with he
            subst he
            exact List.prefix_refl _
        · have ha' : s₀.processAlive = false := by
            cases hx : s₀.processAlive
            · rfl
            · exact absurd hx ha
          rw [show (execute_command m sid0 cmd t bg now ts sch wr).2 = m by
            simp [execute_command, hls, ha']] at h'
          rw [h] at h'
          injection h' with he
          subst he
          exact List.prefix_refl _
    | killOp sid0 r =>
      have := kill_session_lookup m sid0 r sid s' h'
      rw [h] at this
      injection this with he
      subst he
      exact List.prefix_refl _
    | cleanupOp now raises =>
      simp only [applyOp, cleanup_stale_sessions] at h'
      have := foldl_kill_lookup raises _ m sid s' h'
      rw [h] at this
      injection this with he
      subst he
      exact List.prefix_refl _
    | listOp =>
      simp only [applyOp] at h'
      rw [h] at h'
      injection h' with he
      subst he
      exact List.prefix_refl _
    | getOp sid0 =>
      simp only [applyOp] at h'
      rw [h] at h'
      injection h' with he
      subst he
      exact List.prefix_refl _
  · intro m sid cmd t bg now ts sch wr s h ha
    have hL : lookupSessions m.sessions sid = some s := h
    rcases hexec m sid cmd t bg now ts sch wr s h ha with ⟨X, hm, hXh, hXu⟩
    refine ⟨X, ?_, hXh, hXu⟩
    rw [hm]
    exact lookupSessions_update_self m.sessions sid hL X

/-- **C8** witness: a read-only operation preserves the history, and a
dispatch over `demoManager` appends exactly `"pwd"` and stamps the
dispatch time. -/
theorem C8_history_append_only_witness :
    demoSession.commandHistory <+: demoSession.commandHistory
    ∧ ∃ s', lookupSession
        (execute_command demoManager "s1" "pwd" 30 false 7 8 ⟨[], []⟩
          false).2 "s1" = some s'
      ∧ s'.commandHistory = demoSession.commandHistory ++ ["pwd"]
      ∧ s'.lastUsed = 7 :=
  ⟨C8_history_append_only.1 demoManager Op.listOp "s1" demoSession demoSession
     rfl rfl,
   C8_history_append_only.2 demoManager "s1" "pwd" 30 false 7 8 ⟨[], []⟩
     false demoSession rfl rfl⟩

/-- Two commands submitted to one session, neither yet dispatched. -/
def runInit : SessionRun :=
  ⟨[], [⟨"echo one", 1, TaskPhase.ready⟩, ⟨"echo two", 2, TaskPhase.ready⟩]⟩

/-- The state after the first invocation's dispatch: its payload is on
stdin, its marker unobserved, the second invocation not yet started. -/
def runMid1 : SessionRun :=
  ⟨[full_command "echo one" (completion_marker 1)],
   [⟨"echo one", 1, TaskPhase.waitingMarker⟩,
    ⟨"echo two", 2, TaskPhase.ready⟩]⟩

/-- The state after the event loop dispatched both invocations back to
back: both payloads are on stdin and neither marker has been observed. -/
def runBoth : SessionRun :=
  ⟨[full_command "echo one" (completion_marker 1),
    full_command "echo two" (completion_marker 2)],
   [⟨"echo one", 1, TaskPhase.waitingMarker⟩,
    ⟨"echo two", 2, TaskPhase.waitingMarker⟩]⟩

/-- **C9** counterexample: command dispatch is not serialized per session.
`execute_command` takes no per-session lock, so after the first
invocation's stdin write it suspends (line 225) and the event loop may run
the second invocation's dispatch — reaching a state in which two commands
have been written to stdin while neither completion marker has been
observed.  Were dispatch serialized as the claim states, at most one
invocation could be between its write and its marker observation at any
time. -/
theorem C9_counterexample :
    RunReach runInit runBoth ∧ waitingCount runBoth = 2 := by
  refine ⟨?_, by decide⟩
  have h1 : RunStep runInit runMid1 :=
    RunStep.dispatch runInit 0 ⟨"echo one", 1, TaskPhase.ready⟩ rfl rfl
  have h2 : RunStep runMid1 runBoth :=
    RunStep.dispatch runMid1 1 ⟨"echo two", 2, TaskPhase.ready⟩ rfl rfl
  exact Relation.ReflTransGen.tail (Relation.ReflTransGen.single h1) h2

/-- **C9** amended: nothing serializes distinct invocations — a second
command can be written to stdin while a prior command's marker is
unobserved (see the counterexample).  What the code does guarantee is
that each invocation's dispatch is atomic up to and including its stdin
write: every payload ever written to the session's stdin is a complete
`full_command` — the command text together with its marker echo in one
write (lines 213-217), never an interleaved fragment. -/
theorem C9_dispatch_write_atomic (tasks0 : List CmdTask) (st : SessionRun)
    (h : RunReach ⟨[], tasks0⟩ st) :
    ∀ e ∈ st.stdin, ∃ c t, e = full_command c (completion_marker t) := by
  induction h with
  | refl => intro e he; exact absurd he (by simp)
  | tail _ hstep ih =>
    cases hstep with
    | dispatch i tk hget hph =>
      intro e he
      rcases List.mem_append.mp he with h1 | h1
      · exact ih e h1
      · rcases List.mem_singleton.mp h1 with rfl
        exact ⟨tk.command, tk.tstamp, rfl⟩
    | observe i tk hget hph =>
      intro e he
      exact ih e he

/-- **C9** amended, witness: after one dispatch from `runInit`, the single
stdin entry is a complete payload. -/
theorem C9_dispatch_write_atomic_witness :
    ∃ c t, full_command "echo one" (completion_marker 1)
      = full_command c (completion_marker t) :=
  C9_dispatch_write_atomic runInit.tasks runMid1
    (Relation.ReflTransGen.single
      (RunStep.dispatch runInit 0 ⟨"echo one", 1, TaskPhase.ready⟩ rfl rfl))
    (full_command "echo one" (completion_marker 1)) (by simp [runMid1])

end McpBash

